import Mathlib

/-!
Verification of `DDPG_HER/ddpg_agent.py` (DDPG + hindsight experience replay
with MPI workers).

The agent code is embedded in two complementary ways:

* a *trace* embedding: every externally visible call the agent makes
  (environment interaction, replay-buffer access, normalizer reads and
  mutations, gradient/parameter synchronization, optimizer steps) is an
  `Ev` event, and each method of `ddpg_agent` is translated into the list
  of events it emits, with the Python `for` loops becoming `repTrace`;

* a *value* embedding over `ℚ`: the arithmetic the agent performs
  (rollout list construction, action clipping and eps-greedy mixing, the
  critic target and its clamping, the polyak soft update, the evaluation
  success-rate aggregation) is translated into executable functions, with
  the environment, the neural networks, the HER sampler and the random
  draws kept as explicit functional parameters.

`sync_networks` / `sync_grads` (from_baselines/mpi_utils.py) and the MPI
collective `allreduce` are not part of the repository snapshot; where their
semantics is needed it is modelled from the spec, as marked.
-/

namespace DdpgHer

/-- Which of the two networks (and matching target/optimizer) a
gradient-related event concerns. -/
inductive Net
  | actor
  | critic
  deriving DecidableEq, Repr

/-- Externally visible calls made by `ddpg_agent`.  The `Bool` argument of
the normalizer events selects the goal normalizer `g_norm` (`true`) versus
the observation normalizer `o_norm` (`false`). -/
inductive Ev
  | envReset
  | envStep
  | storeEpisode
  | herSample
  | normUpdate (isGoal : Bool)
  | normRecompute (isGoal : Bool)
  | normRead (isGoal : Bool)
  | bufferSample
  | zeroGrad (n : Net)
  | backward (n : Net)
  | syncGrads (n : Net)
  | optimStep (n : Net)
  | softUpdate (n : Net)
  | createNet (n : Net)
  | syncNetworks (n : Net)
  | createTarget (n : Net)
  | loadTarget (n : Net)
  deriving DecidableEq, Repr

/-- `repTrace n l` is the event trace of a Python `for _ in range(n)` loop
whose body emits `l`. -/
def repTrace (n : Nat) (l : List Ev) : List Ev :=
  match n with
  | 0 => []
  | n + 1 => l ++ repTrace n l

/-- Trace of `input_preprocessing` (ddpg_agent.py lines 135-143): it reads
`o_norm.normalize(obs)` then `g_norm.normalize(g)`; no mutation. -/
def input_preprocessing_tr : List Ev :=
  [.normRead false, .normRead true]

/-- Trace of one iteration of the rollout collection loop
(lines 77-93): preprocess the input, run the policy, `env.step`. -/
def rollout_step_tr : List Ev :=
  input_preprocessing_tr ++ [.envStep]

/-- Trace of collecting one episode (lines 71-95): `env.reset` followed by
`max_timesteps` rollout steps. -/
def rollout_episode_tr (maxTimesteps : Nat) : List Ev :=
  .envReset :: repTrace maxTimesteps rollout_step_tr

/-- Trace of `_update_normalizer` (lines 165-189): one call to
`her_module.sample_her_transitions`, then `update` on `o_norm` and
`g_norm`, then `recompute_stats` on `o_norm` and `g_norm`. -/
def update_normalizer_tr : List Ev :=
  [.herSample, .normUpdate false, .normUpdate true,
   .normRecompute false, .normRecompute true]

/-- Trace of `network_updating` (lines 202-261): `buffer.sample`, the four
normalizer reads of lines 210-214, then for the actor
`zero_grad; backward; sync_grads; step` (lines 253-256) and the same for
the critic (lines 258-261). -/
def network_updating_tr : List Ev :=
  [.bufferSample,
   .normRead false, .normRead true, .normRead false, .normRead true,
   .zeroGrad .actor, .backward .actor, .syncGrads .actor, .optimStep .actor,
   .zeroGrad .critic, .backward .critic, .syncGrads .critic, .optimStep .critic]

/-- Trace of one training cycle (lines 66-114): collect
`num_rollouts_per_mpi` episodes, `buffer.store_episode`,
`_update_normalizer`, `n_batches` network updates, then the two soft
updates of the target networks. -/
def cycle_tr (numRollouts maxTimesteps nBatches : Nat) : List Ev :=
  repTrace numRollouts (rollout_episode_tr maxTimesteps)
    ++ [.storeEpisode] ++ update_normalizer_tr
    ++ repTrace nBatches network_updating_tr
    ++ [.softUpdate .actor, .softUpdate .critic]

/-- Trace of `evaluation` (lines 264-286): `n_test_rollouts` episodes,
each an `env.reset` followed by `max_timesteps` iterations that
preprocess the input (two normalizer reads) and call `env.step`. -/
def evaluation_tr (nTestRollouts maxTimesteps : Nat) : List Ev :=
  repTrace nTestRollouts
    (.envReset :: repTrace maxTimesteps (input_preprocessing_tr ++ [.envStep]))

/-- Trace of one epoch of `training` (lines 65-121): `n_cycles` cycles,
then `evaluation`. -/
def epoch_tr (nCycles numRollouts maxTimesteps nBatches nTestRollouts : Nat) :
    List Ev :=
  repTrace nCycles (cycle_tr numRollouts maxTimesteps nBatches)
    ++ evaluation_tr nTestRollouts maxTimesteps

/-- Trace of `training` (lines 58-121): `n_epochs` epochs. -/
def training_tr (nEpochs nCycles numRollouts maxTimesteps nBatches
    nTestRollouts : Nat) : List Ev :=
  repTrace nEpochs (epoch_tr nCycles numRollouts maxTimesteps nBatches nTestRollouts)

/-- Trace of `ddpg_agent.__init__` (lines 17-48): create the actor and
critic networks, `sync_networks` on each, create the target networks, load
the online state dicts into them. -/
def init_tr : List Ev :=
  [.createNet .actor, .createNet .critic,
   .syncNetworks .actor, .syncNetworks .critic,
   .createTarget .actor, .createTarget .critic,
   .loadTarget .actor, .loadTarget .critic]

/-- The events relevant to the store/relabel/sample ordering of a cycle:
replay-buffer writes and reads, HER relabeling calls, and normalizer
mutations. -/
def storeSampleEv (e : Ev) : Bool :=
  match e with
  | .storeEpisode => true
  | .herSample => true
  | .normUpdate _ => true
  | .normRecompute _ => true
  | .bufferSample => true
  | _ => false

/-- The normalizer-mutating events (`update` and `recompute_stats`). -/
def normMutEv (e : Ev) : Bool :=
  match e with
  | .normUpdate _ => true
  | .normRecompute _ => true
  | _ => false

/-- The gradient-pipeline events of network `n`. -/
def gradEv (n : Net) (e : Ev) : Bool :=
  match e with
  | .backward m => decide (m = n)
  | .syncGrads m => decide (m = n)
  | .optimStep m => decide (m = n)
  | _ => false

theorem repTrace_filter (p : Ev → Bool) (n : Nat) (l : List Ev) :
    (repTrace n l).filter p = repTrace n (l.filter p) := by
  induction n with
  | zero => rfl
  | succ n ih => simp [repTrace, List.filter_append, ih]

theorem repTrace_nil (n : Nat) : repTrace n [] = [] := by
  induction n with
  | zero => rfl
  | succ n ih => simpa [repTrace] using ih

/-- The HER sampler object (`her.py`, used at lines 43 and 180): only its
sampling callback matters to the agent, so it is kept abstract. -/
structure her_sampler (α β : Type) where
  sample_her_transitions : α → Nat → β

/-- The replay buffer as seen from the agent: the sampling callback it was
constructed with (line 45). -/
structure replay_buffer (α β : Type) where
  sample_func : α → Nat → β

/-- Lines 43-45 of `__init__`: the replay buffer is constructed with
`self.her_module.sample_her_transitions` as its sampling function. -/
def agent_make_buffer {α β : Type} (hm : her_sampler α β) : replay_buffer α β :=
  { sample_func := hm.sample_her_transitions }

/-- The four networks held by `ddpg_agent` after `__init__`; parameters
are modelled as rational vectors. -/
structure AgentNets where
  actor_network : List ℚ
  critic_network : List ℚ
  actor_target_network : List ℚ
  critic_target_network : List ℚ

/-- Modelled from the spec: `sync_networks` is defined in
`from_baselines/mpi_utils.py`, which is not part of the snapshot; per the
spec it broadcasts the coordinator worker's (rank 0) parameter values to
all workers, overwriting their local parameters. -/
def sync_networks (coordinatorParams _localParams : List ℚ) : List ℚ :=
  coordinatorParams

/-- Value-level model of `__init__` lines 22-32: each worker `rank` locally
initializes its networks (`actorInit rank`, `criticInit rank`),
`sync_networks` overwrites them with rank 0's values, then the target
networks are created and `load_state_dict` copies the (already synced)
online parameters into them. -/
def agent_init (actorInit criticInit : Nat → List ℚ) (rank : Nat) : AgentNets :=
  let actor_network := sync_networks (actorInit 0) (actorInit rank)
  let critic_network := sync_networks (criticInit 0) (criticInit rank)
  { actor_network := actor_network
    critic_network := critic_network
    actor_target_network := actor_network
    critic_target_network := critic_network }

/-- The tuple returned by `env.step(action)` (line 83): the observation
dict's fields used by the agent, plus the environment reward and done
flag, which the rollout loop binds to `_` and discards. -/
structure StepResult (Obs AG : Type) where
  observation : Obs
  achieved_goal : AG
  reward : ℚ
  done : Bool

/-- The four parallel per-episode lists built by the rollout loop
(lines 70-95): `ep_obs`, `ep_ag`, `ep_g`, `ep_actions`.  This is exactly
the data handed to `buffer.store_episode` at line 106 — no reward
field. -/
structure EpisodeData (Obs AG G Act : Type) where
  ep_obs : List Obs
  ep_ag : List AG
  ep_g : List G
  ep_actions : List Act

/-- The rollout loop of lines 77-95, with `fuel` iterations left starting
at timestep `t`: each iteration chooses an action from the current
observation and goal, calls `env.step`, appends `obs`, `ag`, `g` and
`action` to the episode lists, and carries the new observation and
achieved goal forward; after the loop the final `obs` and `ag` are
appended once more (lines 94-95). -/
def rollout_from {Obs AG G Act : Type} (choose : Nat → Obs → G → Act)
    (env_step : Nat → Act → StepResult Obs AG) (g : G) :
    Nat → Nat → Obs → AG → EpisodeData Obs AG G Act
  | 0, _, obs, ag => ⟨[obs], [ag], [], []⟩
  | fuel + 1, t, obs, ag =>
    let action := choose t obs g
    let res := env_step t action
    let rest := rollout_from choose env_step g fuel (t + 1)
      res.observation res.achieved_goal
    ⟨obs :: rest.ep_obs, ag :: rest.ep_ag, g :: rest.ep_g,
     action :: rest.ep_actions⟩

/-- One episode collection (lines 70-95): run the rollout loop for
`max_timesteps` iterations from the reset state. -/
def collect_episode {Obs AG G Act : Type} (choose : Nat → Obs → G → Act)
    (env_step : Nat → Act → StepResult Obs AG)
    (obs0 : Obs) (ag0 : AG) (g : G) (maxTimesteps : Nat) :
    EpisodeData Obs AG G Act :=
  rollout_from choose env_step g maxTimesteps 0 obs0 ag0

/-- The minibatch returned by `self.buffer.sample(batch_size)` at
line 204: the fields of the relabeled transition dict (spec section 4.2),
scalar-per-transition model. -/
structure TransitionBatch where
  obs : List ℚ
  obs_next : List ℚ
  g : List ℚ
  ag : List ℚ
  ag_next : List ℚ
  actions : List ℚ
  r : List ℚ

/-- `np.clip(a, lo, hi)` / `torch.clamp(x, lo, hi)` on rationals. -/
def clipQ (x lo hi : ℚ) : ℚ :=
  min (max x lo) hi

/-- The critic regression target of lines 237-241:
`target_q_value = r + gamma * q_next_value`, then
`clip_return = 1 / (1 - gamma)` and
`torch.clamp(target_q_value, -clip_return, 0)`. -/
def critic_target (gamma r q_next_value : ℚ) : ℚ :=
  let target_q_value := r + gamma * q_next_value
  let clip_return := 1 / (1 - gamma)
  clipQ target_q_value (-clip_return) 0

/-- Lines 229-241 applied to a sampled minibatch: the next-state input of
each transition is its (normalized) `obs_next` and `g`; `q_next_value`
comes from the target critic applied to the target actor's action, and
the reward entering the target is the batch's `r` field. -/
def network_updating_targets (gamma : ℚ)
    (actor_target_network : ℚ × ℚ → ℚ)
    (critic_target_network : ℚ × ℚ → ℚ → ℚ)
    (transitions : TransitionBatch) : List ℚ :=
  let inputs_next := transitions.obs_next.zip transitions.g
  let q_next_value :=
    inputs_next.map (fun inp => critic_target_network inp (actor_target_network inp))
  (transitions.r.zip q_next_value).map (fun p => critic_target gamma p.1 p.2)

/-- `_soft_update_target_network` (lines 197-199): every target parameter
is overwritten with `(1 - polyak) * param + polyak * target_param`,
pairing parameters in iteration order (`zip`). -/
def _soft_update_target_network (polyak : ℚ) (target source : List ℚ) : List ℚ :=
  List.zipWith (fun target_param param =>
    (1 - polyak) * param + polyak * target_param) target source

/-- `_choose_actions` (lines 146-162), elementwise on rational vectors:
add scaled Gaussian noise, clip to `[-action_max, action_max]`, then the
eps-greedy mix `action + eps * (random_actions - action)` where `eps` is
the Bernoulli draw of line 155. -/
def _choose_actions (noise_eps action_max eps_greedy_noise : ℚ)
    (pi gaussian random_actions : List ℚ) : List ℚ :=
  let action := List.zipWith (fun a gz => a + noise_eps * action_max * gz) pi gaussian
  let action := action.map (fun a => clipQ a (-action_max) action_max)
  List.zipWith (fun a ra => a + eps_greedy_noise * (ra - a)) action random_actions

/-- `np.mean` of a list of rationals. -/
def listMean (l : List ℚ) : ℚ :=
  l.sum / l.length

/-- `per_success_rate` of one test episode (lines 267-281): the
`info['is_success']` flag appended at each of the `max_timesteps`
steps. -/
def per_success_rate (maxTimesteps : Nat) (is_success : Nat → ℚ) : List ℚ :=
  (List.range maxTimesteps).map is_success

/-- `local_success_rate` (lines 282-284):
`np.mean(total_success_rate[:, -1])` — the mean over the
`n_test_rollouts` episodes of the final timestep's flag. -/
def local_success_rate (nTestRollouts maxTimesteps : Nat)
    (is_success : Nat → Nat → ℚ) : ℚ :=
  let total_success_rate :=
    (List.range nTestRollouts).map (fun i => per_success_rate maxTimesteps (is_success i))
  listMean (total_success_rate.map (fun row => row.getLast?.getD 0))

/-- Modelled from the spec: `MPI.COMM_WORLD.allreduce(x, op=MPI.SUM)`
(line 285) is the MPI collective summing the workers' local values and
returning the identical sum to every worker. -/
def allreduce_sum (nWorkers : Nat) (localVals : Nat → ℚ) : ℚ :=
  ∑ w ∈ Finset.range nWorkers, localVals w

/-- `evaluation` (lines 264-286) as observed by worker `rank`:
`is_success w i t` is the success flag worker `w` sees at step `t` of its
test rollout `i`.  The worker's own local rate is the `w = rank` term of
the all-reduce; the returned value is the summed rate divided by
`MPI.COMM_WORLD.Get_size()`. -/
def evaluation (nWorkers nTestRollouts maxTimesteps : Nat)
    (is_success : Nat → Nat → Nat → ℚ) (rank : Nat) : ℚ :=
  let global_success_rate := allreduce_sum nWorkers
    (fun w => local_success_rate nTestRollouts maxTimesteps (is_success w))
  global_success_rate / nWorkers

/-- The startup-ordering events of network `n`: its `sync_networks` call,
its target network's creation, and the `load_state_dict` into the
target. -/
def initOrderEv (n : Net) (e : Ev) : Bool :=
  match e with
  | .syncNetworks m => decide (m = n)
  | .createTarget m => decide (m = n)
  | .loadTarget m => decide (m = n)
  | _ => false

/-- Claim C2: in `network_updating`, for both the actor and the critic,
`sync_grads` is invoked exactly once, strictly after the corresponding
`backward()` and strictly before the corresponding optimizer `step()`:
restricted to the gradient-pipeline events of each network, the trace is
exactly `[backward, syncGrads, optimStep]`. -/
theorem sync_grads_between_backward_and_step :
    network_updating_tr.filter (gradEv .actor)
        = [.backward .actor, .syncGrads .actor, .optimStep .actor]
      ∧ network_updating_tr.filter (gradEv .critic)
        = [.backward .critic, .syncGrads .critic, .optimStep .critic] := by
  decide

/-- Claim C3: in every training cycle, restricted to replay-buffer and
normalizer events, the trace is exactly `store_episode`, then the
`sample_her_transitions` relabeling call and the normalizer updates of
`_update_normalizer`, then one `buffer.sample` per network update — so
storage precedes the normalizer update and both precede every minibatch
draw; moreover the buffer is constructed with
`her_module.sample_her_transitions` as its sampling callback. -/
theorem cycle_store_then_normalize_then_sample :
    (∀ numRollouts maxTimesteps nBatches : Nat,
      (cycle_tr numRollouts maxTimesteps nBatches).filter storeSampleEv
        = [.storeEpisode, .herSample, .normUpdate false, .normUpdate true,
            .normRecompute false, .normRecompute true]
          ++ repTrace nBatches [.bufferSample])
    ∧ (∀ (α β : Type) (hm : her_sampler α β),
        (agent_make_buffer hm).sample_func = hm.sample_her_transitions) := by
  constructor
  · intro numRollouts maxTimesteps nBatches
    simp [cycle_tr, rollout_episode_tr, rollout_step_tr, input_preprocessing_tr,
      update_normalizer_tr, network_updating_tr, List.filter_append,
      repTrace_filter, repTrace_nil, storeSampleEv]
  · intro α β hm
    rfl

/-- Claim C4: at construction, `sync_networks` runs on the actor and the
critic before the target networks are created and before
`load_state_dict`; consequently every worker's online networks equal the
coordinator's (rank 0) initial parameters and the target networks start
identical to the synchronized online networks. -/
theorem init_sync_before_targets :
    (init_tr.filter (initOrderEv .actor)
        = [.syncNetworks .actor, .createTarget .actor, .loadTarget .actor]
      ∧ init_tr.filter (initOrderEv .critic)
        = [.syncNetworks .critic, .createTarget .critic, .loadTarget .critic])
    ∧ (∀ (actorInit criticInit : Nat → List ℚ) (rank : Nat),
        (agent_init actorInit criticInit rank).actor_network = actorInit 0
        ∧ (agent_init actorInit criticInit rank).critic_network = criticInit 0
        ∧ (agent_init actorInit criticInit rank).actor_target_network
            = (agent_init actorInit criticInit rank).actor_network
        ∧ (agent_init actorInit criticInit rank).critic_target_network
            = (agent_init actorInit criticInit rank).critic_network) := by
  exact ⟨by decide, fun actorInit criticInit rank => ⟨rfl, rfl, rfl, rfl⟩⟩

/-- Claim C6: restricted to normalizer-mutating events, the whole training
trace is exactly, per epoch and per cycle, the `_update_normalizer`
pattern `update(o_norm); update(g_norm); recompute(o_norm);
recompute(g_norm)` — every mutation goes through update-then-recompute on
both normalizers, and no other agent operation (preprocessing reads,
network updates, evaluation) mutates normalizer state. -/
theorem normalizer_mutation_only_in_update :
    (update_normalizer_tr.filter normMutEv
      = [.normUpdate false, .normUpdate true,
          .normRecompute false, .normRecompute true])
    ∧ (∀ nEpochs nCycles numRollouts maxTimesteps nBatches nTestRollouts : Nat,
        (training_tr nEpochs nCycles numRollouts maxTimesteps nBatches
            nTestRollouts).filter normMutEv
          = repTrace nEpochs (repTrace nCycles
              [.normUpdate false, .normUpdate true,
               .normRecompute false, .normRecompute true])) := by
  refine ⟨by decide, ?_⟩
  intro nEpochs nCycles numRollouts maxTimesteps nBatches nTestRollouts
  simp [training_tr, epoch_tr, cycle_tr, evaluation_tr, rollout_episode_tr,
    rollout_step_tr, input_preprocessing_tr, update_normalizer_tr,
    network_updating_tr, List.filter_append, repTrace_filter, repTrace_nil,
    normMutEv]

theorem rollout_from_shape {Obs AG G Act : Type} (choose : Nat → Obs → G → Act)
    (env_step : Nat → Act → StepResult Obs AG) (g : G) :
    ∀ (fuel t : Nat) (obs : Obs) (ag : AG),
      (rollout_from choose env_step g fuel t obs ag).ep_obs.length = fuel + 1
      ∧ (rollout_from choose env_step g fuel t obs ag).ep_ag.length = fuel + 1
      ∧ (rollout_from choose env_step g fuel t obs ag).ep_g.length = fuel
      ∧ (rollout_from choose env_step g fuel t obs ag).ep_actions.length = fuel := by
  intro fuel
  induction fuel with
  | zero => intro t obs ag; simp [rollout_from]
  | succ n ih =>
    intro t obs ag
    obtain ⟨h1, h2, h3, h4⟩ := ih (t + 1)
      (env_step t (choose t obs g)).observation
      (env_step t (choose t obs g)).achieved_goal
    simp [rollout_from, h1, h2, h3, h4]

/-- Claim C5: every episode assembled by the rollout loop has exactly
`max_timesteps + 1` observations and achieved goals and exactly
`max_timesteps` desired goals and actions. -/
theorem episode_shape {Obs AG G Act : Type} (choose : Nat → Obs → G → Act)
    (env_step : Nat → Act → StepResult Obs AG)
    (obs0 : Obs) (ag0 : AG) (g : G) (maxTimesteps : Nat) :
    (collect_episode choose env_step obs0 ag0 g maxTimesteps).ep_obs.length
        = maxTimesteps + 1
    ∧ (collect_episode choose env_step obs0 ag0 g maxTimesteps).ep_ag.length
        = maxTimesteps + 1
    ∧ (collect_episode choose env_step obs0 ag0 g maxTimesteps).ep_g.length
        = maxTimesteps
    ∧ (collect_episode choose env_step obs0 ag0 g maxTimesteps).ep_actions.length
        = maxTimesteps :=
  rollout_from_shape choose env_step g maxTimesteps 0 obs0 ag0

theorem rollout_from_reward_blind {Obs AG G Act : Type}
    (choose : Nat → Obs → G → Act)
    (env_step1 env_step2 : Nat → Act → StepResult Obs AG) (g : G)
    (hagree : ∀ t a, (env_step1 t a).observation = (env_step2 t a).observation
      ∧ (env_step1 t a).achieved_goal = (env_step2 t a).achieved_goal) :
    ∀ (fuel t : Nat) (obs : Obs) (ag : AG),
      rollout_from choose env_step1 g fuel t obs ag
        = rollout_from choose env_step2 g fuel t obs ag := by
  intro fuel
  induction fuel with
  | zero => intro t obs ag; rfl
  | succ n ih =>
    intro t obs ag
    have hob := (hagree t (choose t obs g)).1
    have hag := (hagree t (choose t obs g)).2
    simp only [rollout_from]
    rw [hob, hag, ih]

/-- Claim C1: environment rewards never reach storage or the critic
target.  First conjunct: the episode data the training loop hands to
`buffer.store_episode` is invariant under any change of the rewards (and
done flags) returned by `env.step` — only the observation and
achieved-goal components matter.  Second conjunct: the critic targets of
`network_updating` depend on the sampled minibatch only through its
sample-time fields `r`, `obs_next` and `g`, so the reward entering the
target is exactly the `r` produced by the relabeling sampler. -/
theorem rewards_discarded_and_recomputed {Obs AG G Act : Type}
    (choose : Nat → Obs → G → Act)
    (env_step1 env_step2 : Nat → Act → StepResult Obs AG)
    (obs0 : Obs) (ag0 : AG) (g : G) (maxTimesteps : Nat)
    (hagree : ∀ t a, (env_step1 t a).observation = (env_step2 t a).observation
      ∧ (env_step1 t a).achieved_goal = (env_step2 t a).achieved_goal)
    (gamma : ℚ) (actor_tn : ℚ × ℚ → ℚ) (critic_tn : ℚ × ℚ → ℚ → ℚ)
    (tb tb2 : TransitionBatch)
    (hr : tb.r = tb2.r) (hon : tb.obs_next = tb2.obs_next)
    (hgg : tb.g = tb2.g) :
    collect_episode choose env_step1 obs0 ag0 g maxTimesteps
      = collect_episode choose env_step2 obs0 ag0 g maxTimesteps
    ∧ network_updating_targets gamma actor_tn critic_tn tb
      = network_updating_targets gamma actor_tn critic_tn tb2 := by
  constructor
  · exact rollout_from_reward_blind choose env_step1 env_step2 g hagree
      maxTimesteps 0 obs0 ag0
  · unfold network_updating_targets
    rw [hr, hon, hgg]

theorem rewards_discarded_witness :
    collect_episode (fun _ o g2 => o + g2)
        (fun _ a => (⟨a, a, 1, false⟩ : StepResult Int Int)) 0 0 1 2
      = collect_episode (fun _ o g2 => o + g2)
        (fun _ a => (⟨a, a, 0, true⟩ : StepResult Int Int)) 0 0 1 2
    ∧ network_updating_targets (1/2) (fun p => p.1) (fun p q => p.2 + q)
        ⟨[1], [2], [3], [4], [5], [6], [7]⟩
      = network_updating_targets (1/2) (fun p => p.1) (fun p q => p.2 + q)
        ⟨[9], [2], [3], [8], [0], [2], [7]⟩ :=
  rewards_discarded_and_recomputed (fun _ o g2 => o + g2)
    (fun _ a => (⟨a, a, 1, false⟩ : StepResult Int Int))
    (fun _ a => (⟨a, a, 0, true⟩ : StepResult Int Int))
    0 0 1 2 (fun _ _ => ⟨rfl, rfl⟩)
    (1/2) (fun p => p.1) (fun p q => p.2 + q)
    ⟨[1], [2], [3], [4], [5], [6], [7]⟩
    ⟨[9], [2], [3], [8], [0], [2], [7]⟩ rfl rfl rfl

theorem zipWith_fun_congr {α β γ : Type} (f f2 : α → β → γ)
    (h : ∀ a b, f a b = f2 a b) :
    ∀ (l1 : List α) (l2 : List β),
      List.zipWith f l1 l2 = List.zipWith f2 l1 l2 := by
  intro l1
  induction l1 with
  | nil => intro l2; rfl
  | cons a as ih =>
    intro l2
    cases l2 with
    | nil => rfl
    | cons b bs => simp [h, ih bs]

/-- Claim C7: `_soft_update_target_network` overwrites the target
parameters, pair by pair in iteration order, with the
exponential-moving-average blend
`polyak * target_param + (1 - polyak) * param`. -/
theorem soft_update_polyak_blend (polyak : ℚ) (target source : List ℚ) :
    _soft_update_target_network polyak target source
      = List.zipWith (fun target_param param =>
          polyak * target_param + (1 - polyak) * param) target source := by
  unfold _soft_update_target_network
  exact zipWith_fun_congr _ _ (fun a b => by ring) target source

theorem mem_zipWith {α β γ : Type} {f : α → β → γ} {x : γ} :
    ∀ {l1 : List α} {l2 : List β}, x ∈ List.zipWith f l1 l2 →
      ∃ a b, a ∈ l1 ∧ b ∈ l2 ∧ x = f a b := by
  intro l1
  induction l1 with
  | nil => intro l2 h; simp at h
  | cons a as ih =>
    intro l2 h
    cases l2 with
    | nil => simp at h
    | cons b bs =>
      rw [List.zipWith_cons_cons] at h
      rcases List.mem_cons.mp h with h1 | h2
      · exact ⟨a, b, List.mem_cons_self a as, List.mem_cons_self b bs, h1⟩
      · obtain ⟨a2, b2, ha, hb, hx⟩ := ih h2
        exact ⟨a2, b2, List.mem_cons_of_mem a ha, List.mem_cons_of_mem b hb, hx⟩

theorem clipQ_bounds (x lo hi : ℚ) (h : lo ≤ hi) :
    lo ≤ clipQ x lo hi ∧ clipQ x lo hi ≤ hi :=
  ⟨le_min (le_max_right x lo) h, min_le_right _ _⟩

/-- Claim C9: every action returned by `_choose_actions` lies in
`[-action_max, action_max]`, for any Gaussian draw: the noisy policy
action is clipped into the range, the uniform random action is drawn
inside it, and the Bernoulli eps-greedy mix selects one of the two. -/
theorem choose_actions_within_bounds
    (noise_eps action_max eps_greedy_noise : ℚ)
    (pi gaussian random_actions : List ℚ)
    (hmax : 0 ≤ action_max)
    (heps : eps_greedy_noise = 0 ∨ eps_greedy_noise = 1)
    (hrand : ∀ ra ∈ random_actions, -action_max ≤ ra ∧ ra ≤ action_max)
    (x : ℚ)
    (hx : x ∈ _choose_actions noise_eps action_max eps_greedy_noise
      pi gaussian random_actions) :
    -action_max ≤ x ∧ x ≤ action_max := by
  unfold _choose_actions at hx
  obtain ⟨a, ra, ha, hra, hxeq⟩ := mem_zipWith hx
  obtain ⟨a0, _, haeq⟩ := List.mem_map.mp ha
  have hclip : -action_max ≤ a ∧ a ≤ action_max := by
    rw [← haeq]
    exact clipQ_bounds a0 (-action_max) action_max (neg_le_self hmax)
  rcases heps with h0 | h1
  · have hxa : x = a := by rw [hxeq, h0]; ring
    rw [hxa]; exact hclip
  · have hxra : x = ra := by rw [hxeq, h1]; ring
    rw [hxra]; exact hrand ra hra

theorem choose_actions_witness :
    (1 : ℚ) ∈ _choose_actions 1 1 0 [2] [1] [0]
    ∧ (-1 ≤ (1 : ℚ) ∧ (1 : ℚ) ≤ 1) := by
  have hmem : (1 : ℚ) ∈ _choose_actions 1 1 0 [2] [1] [0] := by
    norm_num [_choose_actions, clipQ]
  exact ⟨hmem, choose_actions_within_bounds 1 1 0 [2] [1] [0] (by norm_num)
    (Or.inl rfl) (by norm_num) 1 hmem⟩

/-- Claim C10: the critic's regression target `r + gamma * q_next_value`
is clamped to `[-1/(1-gamma), 0]` before the critic loss is formed: the
clamped target is never positive and never below `-1/(1-gamma)`. -/
theorem critic_target_clamped (gamma r q_next_value : ℚ) (hgam : gamma < 1) :
    -(1 / (1 - gamma)) ≤ critic_target gamma r q_next_value
    ∧ critic_target gamma r q_next_value ≤ 0 := by
  have hpos : (0 : ℚ) < 1 - gamma := by linarith
  have hnn : (0 : ℚ) ≤ 1 / (1 - gamma) := le_of_lt (by positivity)
  unfold critic_target
  exact clipQ_bounds _ _ _ (by linarith)

theorem critic_target_witness :
    ((0 : ℚ) < 1)
    ∧ (-(1 / (1 - (0 : ℚ))) ≤ critic_target 0 5 3 ∧ critic_target 0 5 3 ≤ 0) :=
  ⟨by norm_num, critic_target_clamped 0 5 3 (by norm_num)⟩

theorem getLast_of_range_map (k : Nat) (f : Nat → ℚ) :
    ((List.range (k + 1)).map f).getLast?.getD 0 = f k := by
  rw [List.range_succ, List.map_append]
  simp

/-- Claim C8: `evaluation` returns the SUM-all-reduce of the workers'
local success rates divided by the worker count, each local rate being
the mean over the `n_test_rollouts` test episodes of the final
(index `max_timesteps - 1`) timestep's `is_success` flag, and every
worker receives the same aggregated value. -/
theorem evaluation_success_rate
    (nWorkers nTestRollouts maxTimesteps : Nat)
    (is_success : Nat → Nat → Nat → ℚ) (rank rank2 : Nat)
    (hT : 0 < maxTimesteps) :
    evaluation nWorkers nTestRollouts maxTimesteps is_success rank
      = (∑ w ∈ Finset.range nWorkers,
          listMean ((List.range nTestRollouts).map
            (fun i => is_success w i (maxTimesteps - 1)))) / nWorkers
    ∧ evaluation nWorkers nTestRollouts maxTimesteps is_success rank
      = evaluation nWorkers nTestRollouts maxTimesteps is_success rank2 := by
  constructor
  · obtain ⟨k, rfl⟩ : ∃ k, maxTimesteps = k + 1 :=
      ⟨maxTimesteps - 1, (Nat.succ_pred_eq_of_pos hT).symm⟩
    simp only [evaluation, allreduce_sum, local_success_rate,
      per_success_rate, Nat.add_sub_cancel]
    refine congrArg (fun z => z / (nWorkers : ℚ)) ?_
    refine Finset.sum_congr rfl (fun w _ => ?_)
    refine congrArg listMean ?_
    rw [List.map_map]
    refine List.map_congr_left (fun i _ => ?_)
    exact getLast_of_range_map k (is_success w i)
  · rfl

theorem evaluation_witness :
    0 < 1
    ∧ evaluation 2 1 1 (fun w _ _ => (w : ℚ)) 0
        = evaluation 2 1 1 (fun w _ _ => (w : ℚ)) 1 :=
  ⟨by decide,
    (evaluation_success_rate 2 1 1 (fun w _ _ => (w : ℚ)) 0 1 (by decide)).2⟩

end DdpgHer
